import Mathlib

/-!
Verification of the hydrosync serial telemetry/command pipeline
(`hydrosync.py`): the newline frame splitter of `App.read_serial_thread`,
the JSON packet decoder, the FIFO telemetry queue drained by
`App.poll_queue`, the rolling plot buffers and derived-value computation of
`App.update_plot`, the command encoder `App.send_serial`, and the load
configuration `App.set_load`.

Byte streams are modelled as `List Nat` (one `Nat` per byte); the newline
delimiter is byte 10.  Python floats are modelled as exact decimal numbers
(an integer mantissa and a decimal exponent) at the wire level and as `ℚ`
for arithmetic.  Python exceptions are modelled as `Option`/failure
results: a function that can raise returns `none` on the raising input.
-/

/-! ### Frame Splitter (`App.read_serial_thread`, lines 199-205)

The reader thread keeps a byte buffer `buf`; on each chunk it appends the
chunk and then repeatedly looks for the first newline byte: while one is
found at offset `nl`, the bytes `buf[:nl]` are emitted as one record and
`buf[:nl+1]` is removed from the front; when no newline remains, the
residual bytes are kept for the next chunk.  `splitFrames` computes, for a
buffer, the list of records cut out by this loop together with the
residual buffer (the suffix after the last delimiter). -/

def newlineByte : Nat := 10

def splitFrames : List Nat → List (List Nat) × List Nat
  | [] => ([], [])
  | b :: bs =>
    let p := splitFrames bs
    if b = newlineByte then
      ([] :: p.1, p.2)
    else
      match p.1 with
      | [] => ([], b :: p.2)
      | r :: rs => ((b :: r) :: rs, p.2)

/-- One iteration of the reader loop on the arrival of a chunk: append the
chunk to the residual buffer, then cut out all complete records.  The state
carries the records emitted so far and the residual buffer. -/
def feedChunk (st : List (List Nat) × List Nat) (chunk : List Nat) :
    List (List Nat) × List Nat :=
  let p := splitFrames (st.2 ++ chunk)
  (st.1 ++ p.1, p.2)

/-- Feeding a whole sequence of chunk arrivals to the reader loop, starting
from an empty buffer. -/
def feedChunks (chunks : List (List Nat)) : List (List Nat) × List Nat :=
  chunks.foldl feedChunk ([], [])

/-- Reassemble a record list into the byte stream it was cut from: each
record followed by the newline delimiter that terminated it. -/
def joinFrames (records : List (List Nat)) : List Nat :=
  (records.map (fun r => r ++ [newlineByte])).flatten

/-! ### JSON values

`json.loads` / `json.dumps` values as exchanged on the wire.  Numbers are
kept in exact decimal form: `Json.num m e` denotes `m / 10 ^ e` (every
Python float printed by `json.dumps` is such a number, and `json.dumps` /
`json.loads` round-trip it exactly).  The number grammar modelled is the
plain decimal subset (no exponent notation). -/

inductive Json where
  | null : Json
  | bool (b : Bool) : Json
  | num (m : Int) (e : Nat) : Json
  | str (s : String) : Json
  | arr (elems : List Json) : Json
  | obj (members : List (String × Json)) : Json
deriving Repr

/-- Rational value of a decimal number `m / 10 ^ e`. -/
def decimalVal (m : Int) (e : Nat) : ℚ := (m : ℚ) / (10 : ℚ) ^ e

/-- Whether a JSON value is a structured object (a Python `dict` after
`json.loads`). -/
def Json.isObj : Json → Bool
  | .obj _ => true
  | _ => false

/-! ### Rolling buffers (`App.update_plot`, lines 260-262)

Each display channel is a fixed 600-sample array (`np.zeros_like` of a
600-point axis, lines 37-40).  An insertion does
`np.roll(data, -1); data[-1] = v`: the array is shifted left by one (the
oldest value falls out) and the new value is written at the end. -/

def bufferCapacity : Nat := 600

def roll_push (buf : List ℚ) (v : ℚ) : List ℚ :=
  buf.drop 1 ++ [v]

/-- The three channel buffers (`i_data`, `v_data`, `p_data`). -/
structure PlotState where
  i_data : List ℚ
  v_data : List ℚ
  p_data : List ℚ
deriving Repr, DecidableEq

/-- The initial buffers: 600 zeros per channel (lines 37-40). -/
def initPlotState : PlotState :=
  ⟨List.replicate bufferCapacity 0, List.replicate bufferCapacity 0,
   List.replicate bufferCapacity 0⟩

/-! ### Python dict lookup and float coercion

`update_plot` reads `data.get("motor_cmd_v", 0.0)` and applies `float`.
Decoded objects are association lists; `pyGet` is `dict.get` with a
default.  `float` applied to a JSON value succeeds on numbers and booleans
(`float(True) = 1.0`), on strings that spell a plain decimal number, and
raises (`none`) on `None`, lists and dicts. -/

def pyGet (d : List (String × Json)) (key : String) (dflt : Json) : Json :=
  match d.find? (fun kv => kv.1 = key) with
  | some kv => kv.2
  | none => dflt

/-! ### Decimal digits -/

def digitVal (c : Char) : Nat := c.toNat - 48

def digitChar : Nat → Char
  | 0 => '0'
  | 1 => '1'
  | 2 => '2'
  | 3 => '3'
  | 4 => '4'
  | 5 => '5'
  | 6 => '6'
  | 7 => '7'
  | 8 => '8'
  | 9 => '9'
  | _ => '0'

/-- Decimal digit string of a natural number, most significant digit
first. -/
def natDigits (n : Nat) : List Char :=
  if n < 10 then [digitChar n]
  else natDigits (n / 10) ++ [digitChar (n % 10)]
  decreasing_by exact Nat.div_lt_self (by omega) (by omega)

/-- Consume a maximal run of decimal digits, extending the accumulated
value `acc` and digit count `cnt`; returns the value, the total count and
the unconsumed rest. -/
def readDigits : List Char → Nat → Nat → Nat × Nat × List Char
  | [], acc, cnt => (acc, cnt, [])
  | c :: rest, acc, cnt =>
    if c.isDigit then readDigits rest (acc * 10 + digitVal c) (cnt + 1)
    else (acc, cnt, c :: rest)

/-- Strip an optional leading minus sign. -/
def splitSign : List Char → Bool × List Char
  | [] => (false, [])
  | c :: rest => if c = '-' then (true, rest) else (false, c :: rest)

/-- The fractional continuation of a number: a dot followed by a nonempty
digit run turns the integer part `ip` into a mantissa/exponent pair;
anything else ends the number after the integer part. -/
def parseFrac (ip : Nat) (neg : Bool) : List Char → Option ((Int × Nat) × List Char)
  | [] => some ((if neg then -(ip : Int) else (ip : Int), 0), [])
  | c :: l3 =>
    if c = '.' then
      let p2 := readDigits l3 0 0
      if p2.2.1 = 0 then none
      else
        let m : Int := ((ip * 10 ^ p2.2.1 + p2.1 : Nat) : Int)
        some ((if neg then -m else m, p2.2.1), p2.2.2)
    else some ((if neg then -(ip : Int) else (ip : Int), 0), c :: l3)

/-- Parse a plain decimal JSON number: optional minus sign, an integer
digit run, and an optional fractional digit run.  Returns the mantissa and
decimal exponent (`m / 10 ^ e`) and the unconsumed rest. -/
def parseNumber (l : List Char) : Option ((Int × Nat) × List Char) :=
  let sp := splitSign l
  let p1 := readDigits sp.2 0 0
  if p1.2.1 = 0 then none
  else parseFrac p1.1 sp.1 p1.2.2

/-! ### JSON string escaping (model of Python `json.dumps` escaping)

`json.dumps` escapes the double quote, the backslash and ASCII control
characters (with short escapes for the common ones and a four-hex-digit
escape otherwise).  The additional `ensure_ascii` escaping of code points
at or above 0x80 is not modelled: it is invertible and irrelevant to the
round-trip property. -/

def hexVal (c : Char) : Option Nat :=
  if c.isDigit then some (c.toNat - 48)
  else if 'a' ≤ c ∧ c ≤ 'f' then some (c.toNat - 87)
  else if 'A' ≤ c ∧ c ≤ 'F' then some (c.toNat - 55)
  else none

def hexDigitChar : Nat → Char
  | 0 => '0'
  | 1 => '1'
  | 2 => '2'
  | 3 => '3'
  | 4 => '4'
  | 5 => '5'
  | 6 => '6'
  | 7 => '7'
  | 8 => '8'
  | 9 => '9'
  | 10 => 'a'
  | 11 => 'b'
  | 12 => 'c'
  | 13 => 'd'
  | 14 => 'e'
  | 15 => 'f'
  | _ => '0'

def escapeChar (c : Char) : List Char :=
  if c = '"' then ['\\', '"']
  else if c = '\\' then ['\\', '\\']
  else if c = '\n' then ['\\', 'n']
  else if c = '\r' then ['\\', 'r']
  else if c = '\t' then ['\\', 't']
  else if c = '\x08' then ['\\', 'b']
  else if c = '\x0c' then ['\\', 'f']
  else if c.toNat < 32 then
    ['\\', 'u', '0', '0', hexDigitChar (c.toNat / 16), hexDigitChar (c.toNat % 16)]
  else [c]

def escapeString (s : String) : List Char :=
  (s.data.map escapeChar).flatten

/-- Short escape sequences recognized after a backslash. -/
def escCharOf : Char → Option Char
  | '"' => some '"'
  | '\\' => some '\\'
  | '/' => some '/'
  | 'b' => some '\x08'
  | 'f' => some '\x0c'
  | 'n' => some '\n'
  | 'r' => some '\r'
  | 't' => some '\t'
  | _ => none

/-- Parse the body of a JSON string after the opening quote, up to and
including the closing quote; returns the unescaped characters and the
unconsumed rest.  Raw control characters are rejected, as in Python's
strict decoder. -/
def parseStringBody : List Char → Option (List Char × List Char)
  | [] => none
  | c :: rest =>
    if c = '"' then some ([], rest)
    else if c = '\\' then
      match rest with
      | [] => none
      | e :: rest2 =>
        if e = 'u' then
          match rest2 with
          | h1 :: h2 :: h3 :: h4 :: rest3 =>
            match hexVal h1, hexVal h2, hexVal h3, hexVal h4 with
            | some a, some b, some hc, some d =>
              match parseStringBody rest3 with
              | some p =>
                some (Char.ofNat (((a * 16 + b) * 16 + hc) * 16 + d) :: p.1, p.2)
              | none => none
            | _, _, _, _ => none
          | _ => none
        else
          match escCharOf e with
          | some ec =>
            match parseStringBody rest2 with
            | some p => some (ec :: p.1, p.2)
            | none => none
          | none => none
    else if c.toNat < 32 then none
    else
      match parseStringBody rest with
      | some p => some (c :: p.1, p.2)
      | none => none

/-! ### JSON parser (model of Python `json.loads`)

A fuel-indexed recursive-descent parser.  Fuel is consumed once per
nesting step, so any fuel beyond twice the input length is sufficient;
`json_loads` passes `2 * length + 4`.  Model laxities relative to CPython:
exponent number notation and the leading-zero restriction are omitted, and
a trailing comma before a closing brace or bracket is tolerated.  No claim
depends on a record in the affected fringe. -/

def isWsCh (c : Char) : Bool :=
  c = ' ' || c = '\t' || c = '\n' || c = '\r'

def skipWs (l : List Char) : List Char := l.dropWhile isWsCh

mutual

def parseValue : Nat → List Char → Option (Json × List Char)
  | 0, _ => none
  | fuel + 1, l =>
    match skipWs l with
    | [] => none
    | c :: rest =>
      if c = '"' then
        match parseStringBody rest with
        | some p => some (Json.str (String.mk p.1), p.2)
        | none => none
      else if c = '{' then parseMembers fuel (skipWs rest)
      else if c = '[' then parseElems fuel (skipWs rest)
      else if c = 't' then
        match rest with
        | 'r' :: 'u' :: 'e' :: r => some (Json.bool true, r)
        | _ => none
      else if c = 'f' then
        match rest with
        | 'a' :: 'l' :: 's' :: 'e' :: r => some (Json.bool false, r)
        | _ => none
      else if c = 'n' then
        match rest with
        | 'u' :: 'l' :: 'l' :: r => some (Json.null, r)
        | _ => none
      else
        match parseNumber (c :: rest) with
        | some (me, r) => some (Json.num me.1 me.2, r)
        | none => none

def parseMembers : Nat → List Char → Option (Json × List Char)
  | 0, _ => none
  | fuel + 1, l =>
    match l with
    | '}' :: rest => some (Json.obj [], rest)
    | '"' :: rest =>
      match parseStringBody rest with
      | some kp =>
        match skipWs kp.2 with
        | ':' :: r2 =>
          match parseValue fuel r2 with
          | some vp =>
            match skipWs vp.2 with
            | ',' :: r4 =>
              match parseMembers fuel (skipWs r4) with
              | some (Json.obj ms, r5) =>
                some (Json.obj ((String.mk kp.1, vp.1) :: ms), r5)
              | _ => none
            | '}' :: r4 => some (Json.obj [(String.mk kp.1, vp.1)], r4)
            | _ => none
          | none => none
        | _ => none
      | none => none
    | _ => none

def parseElems : Nat → List Char → Option (Json × List Char)
  | 0, _ => none
  | fuel + 1, l =>
    match l with
    | ']' :: rest => some (Json.arr [], rest)
    | _ =>
      match parseValue fuel l with
      | some vp =>
        match skipWs vp.2 with
        | ',' :: r2 =>
          match parseElems fuel (skipWs r2) with
          | some (Json.arr es, r3) => some (Json.arr (vp.1 :: es), r3)
          | _ => none
        | ']' :: r2 => some (Json.arr [vp.1], r2)
        | _ => none
      | none => none

end

/-- Model of `json.loads`: parse one JSON value and require only trailing
whitespace after it. -/
def json_loads (s : String) : Option Json :=
  match parseValue (2 * s.data.length + 4) s.data with
  | some p => if skipWs p.2 = [] then some p.1 else none
  | none => none

/-! ### JSON printer (model of Python `json.dumps` with separators `,` `:`)

`App.send_serial` serializes with `json.dumps(obj, separators=(",", ":"))`,
so no whitespace is emitted.  Numbers are printed in plain decimal form:
integer part, and for a nonzero exponent a point followed by exactly `e`
fractional digits. -/

/-- Exactly `e` fractional digits of `k` (`k < 10 ^ e`), left-padded with
zeros. -/
def padDigits (e : Nat) (k : Nat) : List Char :=
  List.replicate (e - (natDigits k).length) '0' ++ natDigits k

def printNum (m : Int) (e : Nat) : List Char :=
  let sign : List Char := if m < 0 then ['-'] else []
  let n := m.natAbs
  if e = 0 then sign ++ natDigits n
  else sign ++ natDigits (n / 10 ^ e) ++ '.' :: padDigits e (n % 10 ^ e)

mutual

def dumpJson : Json → List Char
  | .null => ("null" : String).data
  | .bool true => ("true" : String).data
  | .bool false => ("false" : String).data
  | .num m e => printNum m e
  | .str s => '"' :: (escapeString s ++ ['"'])
  | .arr es => '[' :: (dumpElems es ++ [']'])
  | .obj ms => '{' :: (dumpMembers ms ++ ['}'])

def dumpElems : List Json → List Char
  | [] => []
  | [j] => dumpJson j
  | j :: rest => dumpJson j ++ ',' :: dumpElems rest

def dumpMembers : List (String × Json) → List Char
  | [] => []
  | [kv] => '"' :: (escapeString kv.1 ++ '"' :: ':' :: dumpJson kv.2)
  | kv :: rest =>
    '"' :: (escapeString kv.1 ++ '"' :: ':' :: dumpJson kv.2) ++
      ',' :: dumpMembers rest

end

def json_dumps (j : Json) : String := String.mk (dumpJson j)

/-! ### Command Encoder (`App.send_serial`, lines 241-249)

The Python method returns `None` on every path: when there is no open
connection the guarded body is skipped entirely (no write, no diagnostic,
no exception); when the write raises, the exception is caught and a
diagnostic is printed.  `SendEffect` records which of those happened;
`send_serial` is total, reflecting that no exception escapes the method. -/

structure SerialConn where
  is_open : Bool
  write_ok : Bool

inductive SendEffect where
  | skipped : SendEffect
  | txOk (line : String) : SendEffect
  | txError (diagnostic : String) : SendEffect
deriving Repr, DecidableEq

/-- The wire line written for a command: the JSON object
with keys `action` and `value`, followed by the newline delimiter
(lines 244-245). -/
def encodeLine (action : String) (value : Json) : String :=
  json_dumps (Json.obj [("action", Json.str action), ("value", value)]) ++ "\n"

def send_serial (ser : Option SerialConn) (action : String) (value : Json) :
    SendEffect :=
  match ser with
  | none => .skipped
  | some s =>
    if s.is_open then
      if s.write_ok then .txOk (encodeLine action value)
      else .txError "Error writing to serial"
    else .skipped

/-- Modelled from the spec: the spec's `send -> Result` contract reports a
`WriteFailure` to the caller.  An effect counts as reporting a write
failure when the caller can observe any failure indication at all; in the
code the only failure indication on any path is the printed diagnostic of
the caught write exception. -/
def reportsWriteFailure : SendEffect → Bool
  | .txError _ => true
  | _ => false

/-! ### Packet Decoder (`App.read_serial_thread`, lines 208-213) -/

/-- `json.loads` guarded by `except json.JSONDecodeError: pass`: a record
either decodes to a sample or yields nothing; no exception escapes. -/
def decode_record (raw : String) : Option Json := json_loads raw

/-- The producer loop over a run of records: each record is decoded once,
successful samples are enqueued in order, failures are skipped. -/
def decode_records (records : List String) : List Json :=
  records.filterMap decode_record

/-! ### Consumer (`App.update_plot`, lines 252-262, and `App.poll_queue`,
lines 220-228) -/

/-- Model of Python `float(text)` on the plain decimal subset. -/
def pyFloatOfString (s : String) : Option ℚ :=
  match parseNumber s.data with
  | some (me, []) => some (decimalVal me.1 me.2)
  | _ => none

/-- Model of Python `float(x)` on a decoded JSON value: numbers and
booleans coerce, numeric strings parse, `None`, lists and dicts raise. -/
def float_coerce : Json → Option ℚ
  | .num m e => some (decimalVal m e)
  | .bool b => some (if b then 1 else 0)
  | .str s => pyFloatOfString s
  | _ => none

/-- One `update_plot` call on a decoded object: read the voltage with
default 0.0, derive current `v / load * 1000` (milliamps) and power
`v * i`, and push each onto its rolling buffer.  Returns `none` when the
code raises: `float()` failing on the voltage value, or the
`ZeroDivisionError` of `v / float(load)` when the configured load is 0. -/
def update_plot (load_r : Int) (data : List (String × Json))
    (st : PlotState) : Option PlotState :=
  match float_coerce (pyGet data "motor_cmd_v" (Json.num 0 0)) with
  | none => none
  | some v =>
    if load_r = 0 then none
    else
      let i := v / (load_r : ℚ) * 1000
      let p := v * i
      some ⟨roll_push st.i_data i, roll_push st.v_data v, roll_push st.p_data p⟩

/-- Applying one dequeued sample: `update_plot(data)` expects a dict;
a non-object sample raises (`data.get` is missing). -/
def apply_sample (load_r : Int) (st : PlotState) (sample : Json) :
    Option PlotState :=
  match sample with
  | .obj kvs => update_plot load_r kvs st
  | _ => none

/-- The `poll_queue` drain loop: `get_nowait` until `queue.Empty`, applying
each sample.  The queue is the list of enqueued samples in FIFO order
(front = oldest).  Returns the final buffers and the samples still queued;
if applying a sample raises, the loop is aborted there (that sample has
already been dequeued and is lost, the rest stay queued). -/
def poll_drain (load_r : Int) : List Json → PlotState → PlotState × List Json
  | [], st => (st, [])
  | s :: rest, st =>
    match apply_sample load_r st s with
    | some st2 => poll_drain load_r rest st2
    | none => (st, rest)

/-- The samples actually dequeued by one drain, in dequeue order. -/
def poll_drain_trace (load_r : Int) : List Json → PlotState → List Json
  | [], _ => []
  | s :: rest, st =>
    match apply_sample load_r st s with
    | some st2 => s :: poll_drain_trace load_r rest st2
    | none => [s]

/-- Enqueue on the telemetry queue (`queue.Queue.put`): append at the
back. -/
def queue_put (q : List Json) (sample : Json) : List Json := q ++ [sample]

/-! ### Load configuration (`App.set_load`, lines 181-189, and the entry
validator, lines 86-89) -/

/-- The `validate_number_input` key validator: digits only, or empty, or a
single dot with digits around it. -/
def validate_number_input (t : String) : Bool :=
  (decide (t.data ≠ []) && t.data.all Char.isDigit) || decide (t.data = []) ||
    (decide (t.data.count '.' = 1) &&
      decide ((t.data.filter (fun c => c ≠ '.')) ≠ []) &&
      (t.data.filter (fun c => c ≠ '.')).all Char.isDigit)

/-- Model of Python `int(text)` on the digit strings the entry admits. -/
def py_int_of_string (s : String) : Option Int :=
  match readDigits s.data 0 0 with
  | (v, n, []) => if n = 0 then none else some (v : Int)
  | _ => none

/-- `set_load`: parse the entry text as an integer; on success store it as
the new load resistance (no range or zero check), on failure print a
diagnostic and keep the old value. -/
def set_load (text : String) (cur : Int) : Int :=
  match py_int_of_string text with
  | some v => v
  | none => cur

/-! ## Lemmas and claim theorems -/

/-! ### Frame splitter -/

theorem splitFrames_append (x y : List Nat) :
    splitFrames (x ++ y) =
      ((splitFrames x).1 ++ (splitFrames ((splitFrames x).2 ++ y)).1,
        (splitFrames ((splitFrames x).2 ++ y)).2) := by
  induction x with
  | nil => simp [splitFrames]
  | cons b bs ih =>
    simp only [List.cons_append, splitFrames, List.append_eq]
    by_cases hb : b = newlineByte
    · simp only [if_pos hb, ih, List.cons_append]
    · simp only [if_neg hb]
      rw [ih]
      cases hq : (splitFrames bs).1 with
      | nil =>
        simp only [hq, List.nil_append, List.cons_append, splitFrames,
          List.append_eq, if_neg hb]
      | cons q qs => simp [hq]

theorem newline_not_mem_residual (s : List Nat) :
    newlineByte ∉ (splitFrames s).2 := by
  induction s with
  | nil => simp [splitFrames]
  | cons b bs ih =>
    simp only [splitFrames]
    by_cases hb : b = newlineByte
    · simpa [if_pos hb] using ih
    · simp only [if_neg hb]
      cases hq : (splitFrames bs).1 with
      | nil =>
        intro hmem
        rcases List.mem_cons.mp hmem with h | h
        · exact hb h.symm
        · exact ih h
      | cons q qs => exact ih

theorem splitFrames_no_newline (l : List Nat) (h : newlineByte ∉ l) :
    splitFrames l = ([], l) := by
  induction l with
  | nil => simp [splitFrames]
  | cons b bs ih =>
    have hb : b ≠ newlineByte := fun he => h (he ▸ List.mem_cons_self b bs)
    have hbs : newlineByte ∉ bs := fun hm => h (List.mem_cons_of_mem b hm)
    simp [splitFrames, if_neg hb, ih hbs]

theorem feedChunk_foldl (chunks : List (List Nat)) (acc : List (List Nat))
    (buf : List Nat) (hbuf : newlineByte ∉ buf) :
    chunks.foldl feedChunk (acc, buf) =
      (acc ++ (splitFrames (buf ++ chunks.flatten)).1,
        (splitFrames (buf ++ chunks.flatten)).2) := by
  induction chunks generalizing acc buf with
  | nil =>
    simp only [List.foldl_nil, List.flatten_nil, List.append_nil]
    rw [splitFrames_no_newline buf hbuf]
    simp
  | cons c cs ih =>
    simp only [List.foldl_cons, List.flatten_cons]
    have step : feedChunk (acc, buf) c =
        (acc ++ (splitFrames (buf ++ c)).1, (splitFrames (buf ++ c)).2) := rfl
    rw [step, ih _ _ (newline_not_mem_residual (buf ++ c))]
    rw [show buf ++ (c ++ cs.flatten) = (buf ++ c) ++ cs.flatten by
      simp [List.append_assoc]]
    rw [splitFrames_append (buf ++ c) cs.flatten]
    simp [List.append_assoc]

/-- C1: framing is invariant under chunk boundaries.  Feeding any sequence
of chunks (in particular any way of splitting a byte stream into non-empty
chunks) through the reader loop emits the same records in the same order,
and leaves the same residual buffer, as feeding the reassembled stream in
one single chunk. -/
theorem frame_splitter_chunk_invariant (chunks : List (List Nat)) :
    feedChunks chunks = feedChunks [chunks.flatten] := by
  unfold feedChunks
  rw [feedChunk_foldl chunks [] [] (by simp),
    feedChunk_foldl [chunks.flatten] [] [] (by simp)]
  simp

/-- C3: byte conservation of the splitting step.  Reassembling the emitted
records, each followed by the newline delimiter that was cut, and appending
the residual buffer gives back exactly the input stream: every
non-delimiter byte of the stream lands exactly once in a record or in the
residual buffer, and the delimiters are the only bytes consumed. -/
theorem frame_splitter_byte_conservation (s : List Nat) :
    joinFrames (splitFrames s).1 ++ (splitFrames s).2 = s := by
  induction s with
  | nil => rfl
  | cons b bs ih =>
    simp only [splitFrames]
    by_cases hb : b = newlineByte
    · simp only [if_pos hb]
      simp only [joinFrames, List.map_cons, List.flatten_cons, List.nil_append] at *
      simpa [hb] using ih
    · simp only [if_neg hb]
      cases hq : (splitFrames bs).1 with
      | nil =>
        rw [hq] at ih
        simp only [joinFrames, List.map_nil, List.flatten_nil,
          List.nil_append] at ih ⊢
        simp [ih]
      | cons r rs =>
        rw [hq] at ih
        simp only [joinFrames, List.map_cons, List.flatten_cons] at ih ⊢
        simp only [List.cons_append, List.append_assoc, List.nil_append]
          at ih ⊢
        simpa using ih

/-! ### Rolling buffers -/

theorem roll_push_foldl (vs : List ℚ) (init : List ℚ) (h : init ≠ []) :
    List.foldl roll_push init vs = (init ++ vs).drop vs.length := by
  induction vs generalizing init with
  | nil => simp
  | cons v vs ih =>
    cases init with
    | nil => exact absurd rfl h
    | cons a t =>
      simp only [List.foldl_cons]
      rw [ih (roll_push (a :: t) v) (by simp [roll_push])]
      simp [roll_push, List.append_assoc]

/-- C6: a rolling buffer started at the fixed 600-zero state never exceeds
the capacity of 600 after any sequence of insertions; after inserting
capacity + 1 values the buffer holds exactly the last capacity of them, in
order (the oldest inserted value has been evicted); and each insertion at
capacity removes exactly the head (oldest) element and appends the new
value at the end. -/
theorem rolling_buffer_capacity_evict (vs : List ℚ) :
    (List.foldl roll_push (List.replicate bufferCapacity 0) vs).length ≤
        bufferCapacity ∧
      (vs.length = bufferCapacity + 1 →
        List.foldl roll_push (List.replicate bufferCapacity 0) vs =
          vs.drop 1) ∧
      ∀ (buf : List ℚ) (v : ℚ), buf.length = bufferCapacity →
        roll_push buf v = buf.tail ++ [v] := by
  have hne : (List.replicate bufferCapacity (0 : ℚ)) ≠ [] := by
    intro hcon
    have h6 := congrArg List.length hcon
    rw [List.length_replicate, List.length_nil] at h6
    exact absurd h6 (by decide)
  refine ⟨?_, ?_, ?_⟩
  · rw [roll_push_foldl _ _ hne]
    simp
  · intro hlen
    rw [roll_push_foldl _ _ hne, hlen]
    rw [← List.drop_drop]
    rw [List.drop_left'
      (by simp : (List.replicate bufferCapacity (0 : ℚ)).length =
        bufferCapacity)]
  · intro buf v _
    simp [roll_push, List.drop_one]

/-- C6 witness: inserting 601 ones into the 600-zero buffer leaves 600
ones; a length-600 buffer push evicts the head. -/
theorem rolling_buffer_capacity_evict_witness :
    (List.replicate (bufferCapacity + 1) (1 : ℚ)).length =
        bufferCapacity + 1 ∧
      List.foldl roll_push (List.replicate bufferCapacity 0)
          (List.replicate (bufferCapacity + 1) (1 : ℚ)) =
        (List.replicate (bufferCapacity + 1) (1 : ℚ)).drop 1 ∧
      (List.replicate bufferCapacity (5 : ℚ)).length = bufferCapacity ∧
      roll_push (List.replicate bufferCapacity (5 : ℚ)) 7 =
        (List.replicate bufferCapacity (5 : ℚ)).tail ++ [7] := by
  refine ⟨by simp, ?_, by simp, ?_⟩
  · exact (rolling_buffer_capacity_evict _).2.1 (by simp)
  · exact (rolling_buffer_capacity_evict []).2.2 _ 7 (by simp)

/-! ### Telemetry channel and consumer drain -/

/-- C7 (amended): when every queued sample applies without raising, one
consumer tick dequeues exactly the enqueued samples, in FIFO (enqueue)
order, applies them in that order, and stops only when the channel is
empty. -/
theorem telemetry_fifo_drain (load : Int) (q : List Json) (st st' : PlotState)
    (h : List.foldlM (apply_sample load) st q = some st') :
    poll_drain load q st = (st', []) ∧ poll_drain_trace load q st = q := by
  induction q generalizing st with
  | nil =>
    simp only [List.foldlM_nil] at h
    cases h
    exact ⟨rfl, rfl⟩
  | cons s rest ih =>
    simp only [List.foldlM_cons] at h
    cases happ : apply_sample load st s with
    | none => rw [happ] at h; simp at h
    | some st2 =>
      rw [happ] at h
      simp at h
      refine ⟨?_, ?_⟩
      · simp only [poll_drain, happ]
        exact (ih st2 h).1
      · simp only [poll_drain_trace, happ]
        rw [(ih st2 h).2]

/-- C7 witness: a queue of two well-formed samples is drained completely
and in enqueue order. -/
theorem telemetry_fifo_drain_witness :
    List.foldlM (apply_sample 220) (⟨[0], [0], [0]⟩ : PlotState)
        [Json.obj [("motor_cmd_v", Json.num 0 0)], Json.obj []] =
      some ⟨[0], [0], [0]⟩ ∧
    poll_drain 220 [Json.obj [("motor_cmd_v", Json.num 0 0)], Json.obj []]
        ⟨[0], [0], [0]⟩ = (⟨[0], [0], [0]⟩, []) ∧
    poll_drain_trace 220
        [Json.obj [("motor_cmd_v", Json.num 0 0)], Json.obj []]
        ⟨[0], [0], [0]⟩ =
      [Json.obj [("motor_cmd_v", Json.num 0 0)], Json.obj []] := by
  have h : List.foldlM (apply_sample 220) (⟨[0], [0], [0]⟩ : PlotState)
      [Json.obj [("motor_cmd_v", Json.num 0 0)], Json.obj []] =
      some ⟨[0], [0], [0]⟩ := by
    simp [List.foldlM, apply_sample, update_plot, pyGet, float_coerce,
      decimalVal, roll_push]
  exact ⟨h, (telemetry_fifo_drain 220 _ _ _ h).1,
    (telemetry_fifo_drain 220 _ _ _ h).2⟩

/-- C7 counterexample: with a decodable but non-mapping sample (record
`42`) at the head of the queue, its application raises, the drain aborts,
and the rest of the queue is left undrained — the tick does not process
every available sample. -/
theorem telemetry_drain_counterexample :
    (poll_drain 220 [Json.num 42 0, Json.obj [("motor_cmd_v", Json.num 1 0)]]
        initPlotState).2 = [Json.obj [("motor_cmd_v", Json.num 1 0)]] ∧
      (poll_drain 220
          [Json.num 42 0, Json.obj [("motor_cmd_v", Json.num 1 0)]]
          initPlotState).2 ≠ [] := by
  have h1 : (poll_drain 220
      [Json.num 42 0, Json.obj [("motor_cmd_v", Json.num 1 0)]]
      initPlotState).2 = [Json.obj [("motor_cmd_v", Json.num 1 0)]] := rfl
  refine ⟨h1, ?_⟩
  rw [h1]
  simp

/-! ### Derived values (C9, C10) -/

/-- C9 counterexample: at a configured load of 1 Ω and a sample voltage of
1 V, the value appended to the current buffer by `update_plot` is 1000
(the code multiplies by 1000 to convert to milliamps), which differs from
the claimed current = voltage / load = 1. -/
theorem derived_current_counterexample :
    ((update_plot 1 [("motor_cmd_v", Json.num 1 0)] initPlotState).map
        (fun st => st.i_data.getLast?)) = some (some 1000) ∧
      (1000 : ℚ) ≠ decimalVal 1 0 / ((1 : Int) : ℚ) := by
  constructor
  · simp [update_plot, pyGet, float_coerce, decimalVal, roll_push]
  · norm_num [decimalVal]

/-- C9 (amended): for a sample whose voltage field coerces to `v` and a
nonzero configured load, the consumer appends current
`v / load * 1000` (milliamps), voltage `v`, and power
`v * current` — a pure function of the sample and the load; a sample with
no `motor_cmd_v` key is treated as voltage 0 (all three appended values
are 0). -/
theorem derived_values_amended (load : Int) (data : List (String × Json))
    (st : PlotState) (hload : load ≠ 0) :
    (∀ v : ℚ,
        float_coerce (pyGet data "motor_cmd_v" (Json.num 0 0)) = some v →
        update_plot load data st =
          some ⟨roll_push st.i_data (v / (load : ℚ) * 1000),
                roll_push st.v_data v,
                roll_push st.p_data (v * (v / (load : ℚ) * 1000))⟩) ∧
      (data.find? (fun kv => kv.1 = "motor_cmd_v") = none →
        update_plot load data st =
          some ⟨roll_push st.i_data 0, roll_push st.v_data 0,
                roll_push st.p_data 0⟩) := by
  constructor
  · intro v hv
    simp [update_plot, hv, hload]
  · intro hnone
    have hv : float_coerce (pyGet data "motor_cmd_v" (Json.num 0 0)) =
        some 0 := by
      simp [pyGet, hnone, float_coerce, decimalVal]
    simp [update_plot, hv, hload]

/-- C9 witness: a concrete 3 V sample at 2 Ω, and a sample with the
voltage field missing. -/
theorem derived_values_amended_witness :
    (2 : Int) ≠ 0 ∧
    float_coerce (pyGet [("motor_cmd_v", Json.num 3 0)] "motor_cmd_v"
        (Json.num 0 0)) = some (decimalVal 3 0) ∧
    update_plot 2 [("motor_cmd_v", Json.num 3 0)] initPlotState =
      some ⟨roll_push initPlotState.i_data
              (decimalVal 3 0 / ((2 : Int) : ℚ) * 1000),
            roll_push initPlotState.v_data (decimalVal 3 0),
            roll_push initPlotState.p_data
              (decimalVal 3 0 * (decimalVal 3 0 / ((2 : Int) : ℚ) * 1000))⟩ ∧
    ([] : List (String × Json)).find? (fun kv => kv.1 = "motor_cmd_v") =
      none ∧
    update_plot 2 [] initPlotState =
      some ⟨roll_push initPlotState.i_data 0, roll_push initPlotState.v_data 0,
            roll_push initPlotState.p_data 0⟩ := by
  refine ⟨by decide, rfl, ?_, rfl, ?_⟩
  · exact (derived_values_amended 2 _ initPlotState (by decide)).1
      (decimalVal 3 0) rfl
  · exact (derived_values_amended 2 [] initPlotState (by decide)).2 rfl

/-- C10: `set_load` accepts any digit string the entry admits, including
"0" (no zero guard), and the consumer's division `v / float(load)` has no
guard either: processing a sample with a coercible voltage succeeds
exactly when the configured load is nonzero, and with load 0 it hits the
ZeroDivisionError branch. -/
theorem set_load_zero_division :
    (∀ cur : Int, set_load "0" cur = 0) ∧
      validate_number_input "0" = true ∧
      (∀ (data : List (String × Json)) (st : PlotState) (v : ℚ),
        float_coerce (pyGet data "motor_cmd_v" (Json.num 0 0)) = some v →
        update_plot 0 data st = none) ∧
      (∀ (load : Int) (data : List (String × Json)) (st : PlotState)
        (v : ℚ), load ≠ 0 →
        float_coerce (pyGet data "motor_cmd_v" (Json.num 0 0)) = some v →
        (update_plot load data st).isSome = true) := by
  refine ⟨fun cur => rfl, by decide, ?_, ?_⟩
  · intro data st v hv
    simp [update_plot, hv]
  · intro load data st v hload hv
    simp [update_plot, hv, hload]

/-- C10 witness: entering "0" sets the load to 0; the next sample then
fails, while the same sample at the 220 Ω default succeeds. -/
theorem set_load_zero_division_witness :
    set_load "0" 220 = 0 ∧
      float_coerce (pyGet [] "motor_cmd_v" (Json.num 0 0)) =
        some (decimalVal 0 0) ∧
      update_plot 0 [] initPlotState = none ∧
      (220 : Int) ≠ 0 ∧
      (update_plot 220 [] initPlotState).isSome = true := by
  refine ⟨set_load_zero_division.1 220, rfl, ?_, by decide, ?_⟩
  · exact set_load_zero_division.2.2.1 [] initPlotState (decimalVal 0 0) rfl
  · exact set_load_zero_division.2.2.2 220 [] initPlotState (decimalVal 0 0)
      (by decide) rfl

/-! ### Command sending (C2) -/

/-- C2 counterexample: `send("START", None)` with no connection does not
return a `WriteFailure` — the guarded body is skipped entirely: nothing is
written, no diagnostic is produced, no exception is raised, and the Python
method just returns `None`, so no failure indication of any kind reaches
the caller. -/
theorem send_disconnected_counterexample :
    send_serial none "START" Json.null = SendEffect.skipped ∧
      reportsWriteFailure (send_serial none "START" Json.null) = false :=
  ⟨rfl, rfl⟩

/-- C2 (amended): `send_serial` never lets an exception escape (the model
is total), performs no write and reports nothing when the connection is
absent or closed (the send is silently skipped), and catches a failing
write on an open connection, reporting it only as a printed diagnostic. -/
theorem send_serial_never_raises (action : String) (value : Json) :
    send_serial none action value = SendEffect.skipped ∧
      (∀ s : SerialConn, s.is_open = false →
        send_serial (some s) action value = SendEffect.skipped) ∧
      (∀ s : SerialConn, s.is_open = true → s.write_ok = false →
        send_serial (some s) action value =
          SendEffect.txError "Error writing to serial") := by
  refine ⟨rfl, ?_, ?_⟩
  · intro s hs
    simp [send_serial, hs]
  · intro s ho hw
    simp [send_serial, ho, hw]

/-- C2 witness: concrete closed and failing connections for the START
command. -/
theorem send_serial_never_raises_witness :
    send_serial none "START" Json.null = SendEffect.skipped ∧
      (⟨false, true⟩ : SerialConn).is_open = false ∧
      send_serial (some ⟨false, true⟩) "START" Json.null =
        SendEffect.skipped ∧
      (⟨true, false⟩ : SerialConn).is_open = true ∧
      (⟨true, false⟩ : SerialConn).write_ok = false ∧
      send_serial (some ⟨true, false⟩) "START" Json.null =
        SendEffect.txError "Error writing to serial" := by
  refine ⟨(send_serial_never_raises "START" Json.null).1, rfl, ?_, rfl, rfl,
    ?_⟩
  · exact (send_serial_never_raises "START" Json.null).2.1 ⟨false, true⟩ rfl
  · exact (send_serial_never_raises "START" Json.null).2.2 ⟨true, false⟩ rfl
      rfl

/-! ### Packet decoding (C4, C5) -/

/-- C4: a record whose text does not parse as JSON enqueues no sample (the
decode is `none`), no exception escapes the decoder (the model is total:
the JSONDecodeError is caught and the loop continues), and the producer
continues with the next record; each record is decoded exactly once by the
single pass of the loop. -/
theorem undecodable_record_no_sample (raw : String) (rest : List String)
    (h : json_loads raw = none) :
    decode_record raw = none ∧
      decode_records (raw :: rest) = decode_records rest := by
  refine ⟨h, ?_⟩
  simp [decode_records, List.filterMap_cons, decode_record, h]

/-- C4 witness: the record `not json` fails to decode and the loop moves
on to the following record. -/
theorem undecodable_record_no_sample_witness :
    json_loads "not json" = none ∧
      decode_record "not json" = none ∧
      decode_records ["not json", "null"] = decode_records ["null"] := by
  have h : json_loads "not json" = none := rfl
  exact ⟨h, (undecodable_record_no_sample "not json" ["null"] h).1,
    (undecodable_record_no_sample "not json" ["null"] h).2⟩

/-- C5 counterexample: the record `42` parses as JSON — a number, not a
structured object — and the decoder enqueues it anyway: it is not true
that only records parsing as JSON objects produce samples, and this
sample supports no key lookup. -/
theorem non_object_sample_counterexample :
    json_loads "42" = some (Json.num 42 0) ∧
      decode_record "42" = some (Json.num 42 0) ∧
      Json.isObj (Json.num 42 0) = false :=
  ⟨rfl, rfl, rfl⟩

/-- C5 (amended): every record that parses as JSON yields exactly the
parsed value as the enqueued sample, object or not; when the record parses
as a JSON object the sample carries its key/value pairs and supports
key lookup with a default (`dict.get`). -/
theorem decoded_sample_amended (raw : String) (j : Json)
    (h : json_loads raw = some j) :
    decode_record raw = some j ∧
      decode_records [raw] = [j] ∧
      ∀ (kvs : List (String × Json)) (key : String) (dflt : Json),
        j = Json.obj kvs →
        pyGet kvs key dflt =
          (match kvs.find? (fun kv => kv.1 = key) with
            | some kv => kv.2
            | none => dflt) := by
  refine ⟨h, ?_, ?_⟩
  · simp [decode_records, decode_record, h]
  · intro kvs key dflt _
    rfl

/-- C5 witness: a one-field object record decodes to its mapping, and the
lookup finds the stored value. -/
theorem decoded_sample_amended_witness :
    json_loads "\x7b\"a\":1\x7d" = some (Json.obj [("a", Json.num 1 0)]) ∧
      decode_record "\x7b\"a\":1\x7d" =
        some (Json.obj [("a", Json.num 1 0)]) ∧
      decode_records ["\x7b\"a\":1\x7d"] = [Json.obj [("a", Json.num 1 0)]] ∧
      pyGet [("a", Json.num 1 0)] "a" Json.null = Json.num 1 0 := by
  have h : json_loads "\x7b\"a\":1\x7d" =
      some (Json.obj [("a", Json.num 1 0)]) := rfl
  refine ⟨h, (decoded_sample_amended _ _ h).1,
    (decoded_sample_amended _ _ h).2.1, ?_⟩
  exact ((decoded_sample_amended _ _ h).2.2 [("a", Json.num 1 0)] "a"
    Json.null rfl).trans (by rfl)

/-! ### Digit printing and parsing (towards the C8 round trip) -/

theorem digitChar_isDigit (n : Nat) (h : n < 10) :
    (digitChar n).isDigit = true := by
  interval_cases n <;> rfl

theorem digitVal_digitChar (n : Nat) (h : n < 10) :
    digitVal (digitChar n) = n := by
  interval_cases n <;> rfl

/-- A digit character is not whitespace, not a structural character, not a
literal keyword head, not a sign and not a dot. -/
theorem digitChar_class (n : Nat) (h : n < 10) :
    isWsCh (digitChar n) = false ∧ digitChar n ≠ '"' ∧ digitChar n ≠ '{' ∧
      digitChar n ≠ '[' ∧ digitChar n ≠ 't' ∧ digitChar n ≠ 'f' ∧
      digitChar n ≠ 'n' ∧ digitChar n ≠ '-' ∧ digitChar n ≠ '.' := by
  interval_cases n <;> exact (by decide)

theorem natDigits_step (n : Nat) (h : ¬ n < 10) :
    natDigits n = natDigits (n / 10) ++ [digitChar (n % 10)] := by
  conv_lhs => unfold natDigits
  rw [if_neg h]

theorem natDigits_base (n : Nat) (h : n < 10) :
    natDigits n = [digitChar n] := by
  conv_lhs => unfold natDigits
  rw [if_pos h]

theorem natDigits_length_pos (n : Nat) : 0 < (natDigits n).length := by
  unfold natDigits
  split
  · simp
  · simp

theorem natDigits_head (x : Nat) :
    ∃ k ds, k < 10 ∧ natDigits x = digitChar k :: ds := by
  induction x using Nat.strong_induction_on with
  | _ x ih =>
    by_cases h : x < 10
    · exact ⟨x, [], h, natDigits_base x h⟩
    · obtain ⟨k, ds, hk, hds⟩ :=
        ih (x / 10) (Nat.div_lt_self (by omega) (by omega))
      refine ⟨k, ds ++ [digitChar (x % 10)], hk, ?_⟩
      rw [natDigits_step x h, hds]
      rfl

theorem readDigits_natDigits (n : Nat) :
    ∀ (acc cnt : Nat) (rest : List Char),
      readDigits (natDigits n ++ rest) acc cnt =
        readDigits rest (acc * 10 ^ (natDigits n).length + n)
          (cnt + (natDigits n).length) := by
  induction n using Nat.strong_induction_on with
  | _ n ih =>
    intro acc cnt rest
    by_cases h : n < 10
    · rw [natDigits_base n h]
      simp only [List.cons_append, List.nil_append, readDigits,
        List.length_cons, List.length_nil]
      rw [if_pos (digitChar_isDigit n h), digitVal_digitChar n h]
      norm_num
    · have hd := natDigits_step n h
      have hm : n % 10 < 10 := Nat.mod_lt n (by omega)
      rw [hd, List.append_assoc, List.singleton_append]
      rw [ih (n / 10) (Nat.div_lt_self (by omega) (by omega))]
      simp only [readDigits]
      rw [if_pos (digitChar_isDigit _ hm), digitVal_digitChar _ hm]
      have harith : (acc * 10 ^ (natDigits (n / 10)).length + n / 10) * 10 +
          n % 10 =
          acc * 10 ^ ((natDigits (n / 10)).length + 1) + n := by
        have hdm : n / 10 * 10 + n % 10 = n := by omega
        calc (acc * 10 ^ (natDigits (n / 10)).length + n / 10) * 10 + n % 10
            = acc * (10 ^ (natDigits (n / 10)).length * 10) +
                (n / 10 * 10 + n % 10) := by ring
          _ = acc * 10 ^ ((natDigits (n / 10)).length + 1) + n := by
                rw [hdm, pow_succ]
      rw [harith]
      have hlen : (natDigits (n / 10) ++ [digitChar (n % 10)]).length =
          (natDigits (n / 10)).length + 1 := by simp
      rw [hlen, Nat.add_assoc]

theorem natDigits_length_le (n : Nat) :
    ∀ t, 1 ≤ t → n < 10 ^ t → (natDigits n).length ≤ t := by
  induction n using Nat.strong_induction_on with
  | _ n ih =>
    intro t ht h
    by_cases hn : n < 10
    · rw [natDigits_base n hn]
      simpa using ht
    · have hd := natDigits_step n hn
      have ht2 : 2 ≤ t := by
        by_contra hc
        have ht1 : t = 1 := by omega
        subst ht1
        simp at h
        omega
      have hpow : 10 ^ (t - 1) * 10 = 10 ^ t := by
        rw [← pow_succ]
        congr 1
        omega
      have hdiv : n / 10 < 10 ^ (t - 1) := by
        have hlt : n < 10 ^ (t - 1) * 10 := by rw [hpow]; exact h
        omega
      have hle := ih (n / 10) (Nat.div_lt_self (by omega) (by omega))
        (t - 1) (by omega) hdiv
      rw [hd]
      simp only [List.length_append, List.length_cons, List.length_nil]
      omega

theorem readDigits_stop (l : List Char) (acc cnt : Nat)
    (h : ∀ c, l.head? = some c → c.isDigit = false) :
    readDigits l acc cnt = (acc, cnt, l) := by
  cases l with
  | nil => rfl
  | cons c rest =>
    have hc := h c rfl
    simp [readDigits, hc]

theorem readDigits_natDigits_zero (a : Nat) (rest : List Char)
    (hb : ∀ c, rest.head? = some c → c.isDigit = false) :
    readDigits (natDigits a ++ rest) 0 0 =
      (a, (natDigits a).length, rest) := by
  rw [readDigits_natDigits, readDigits_stop rest _ _ hb]
  simp

theorem readDigits_replicate_zero (j : Nat) :
    ∀ (l : List Char) (acc cnt : Nat),
      readDigits (List.replicate j '0' ++ l) acc cnt =
        readDigits l (acc * 10 ^ j) (cnt + j) := by
  induction j with
  | zero => intro l acc cnt; simp
  | succ j ihj =>
    intro l acc cnt
    rw [List.replicate_succ, List.cons_append]
    have hstep : readDigits ('0' :: (List.replicate j '0' ++ l)) acc cnt =
        readDigits (List.replicate j '0' ++ l) (acc * 10 + 0) (cnt + 1) := by
      simp [readDigits, digitVal]
    rw [hstep, ihj]
    rw [show (acc * 10 + 0) * 10 ^ j = acc * 10 ^ (j + 1) by ring,
      show cnt + 1 + j = cnt + (j + 1) by omega]

/-! ### Number printing round trip -/

theorem parseFrac_stop (ip : Nat) (neg : Bool) (rest : List Char)
    (hb : ∀ c, rest.head? = some c → c ≠ '.') :
    parseFrac ip neg rest =
      some ((if neg then -(ip : Int) else (ip : Int), 0), rest) := by
  cases rest with
  | nil => rfl
  | cons c l3 =>
    have hc := hb c rfl
    simp [parseFrac, hc]

theorem parseFrac_body (ip : Nat) (neg : Bool) (e : Nat) (k : Nat)
    (rest : List Char) (hk : k < 10 ^ e) (he : e ≠ 0)
    (hb : ∀ c, rest.head? = some c → c.isDigit = false) :
    parseFrac ip neg ('.' :: (padDigits e k ++ rest)) =
      some ((if neg then -((ip * 10 ^ e + k : Nat) : Int)
             else ((ip * 10 ^ e + k : Nat) : Int), e), rest) := by
  have hL : (natDigits k).length ≤ e := natDigits_length_le k e (by omega) hk
  have hread : readDigits (padDigits e k ++ rest) 0 0 = (k, e, rest) := by
    unfold padDigits
    rw [List.append_assoc, readDigits_replicate_zero, readDigits_natDigits,
      readDigits_stop rest _ _ hb]
    have hj : 0 + (e - (natDigits k).length) + (natDigits k).length = e := by
      omega
    simp only [Nat.zero_mul, Nat.zero_add, zero_mul, zero_add]
    rw [show e - (natDigits k).length + (natDigits k).length = e by omega]
  simp only [parseFrac, if_true]
  rw [hread]
  simp [he]

theorem parseNumber_cons_dash (X : List Char) :
    parseNumber ('-' :: X) =
      (let p1 := readDigits X 0 0
       if p1.2.1 = 0 then none else parseFrac p1.1 true p1.2.2) := by
  simp [parseNumber, splitSign]

theorem parseNumber_cons_nodash (c : Char) (X : List Char) (h : c ≠ '-') :
    parseNumber (c :: X) =
      (let p1 := readDigits (c :: X) 0 0
       if p1.2.1 = 0 then none else parseFrac p1.1 false p1.2.2) := by
  simp [parseNumber, splitSign, h]

theorem parseNumber_unsigned_int (n : Nat) (neg : Bool) (rest : List Char)
    (hb : ∀ c, rest.head? = some c → c.isDigit = false ∧ c ≠ '.') :
    (let p1 := readDigits (natDigits n ++ rest) 0 0
     if p1.2.1 = 0 then none else parseFrac p1.1 neg p1.2.2) =
      some ((if neg then -(n : Int) else (n : Int), 0), rest) := by
  rw [readDigits_natDigits_zero n rest (fun c hc => (hb c hc).1)]
  simp only []
  rw [if_neg (by have := natDigits_length_pos n; omega)]
  exact parseFrac_stop n neg rest (fun c hc => (hb c hc).2)

theorem parseNumber_unsigned_frac (n e : Nat) (neg : Bool)
    (rest : List Char) (he : e ≠ 0)
    (hb : ∀ c, rest.head? = some c → c.isDigit = false) :
    (let p1 := readDigits
        ((natDigits (n / 10 ^ e) ++ '.' :: padDigits e (n % 10 ^ e)) ++ rest)
        0 0
     if p1.2.1 = 0 then none else parseFrac p1.1 neg p1.2.2) =
      some ((if neg then -(n : Int) else (n : Int), e), rest) := by
  rw [List.append_assoc]
  rw [show ('.' :: padDigits e (n % 10 ^ e)) ++ rest =
    '.' :: (padDigits e (n % 10 ^ e) ++ rest) from rfl]
  rw [readDigits_natDigits_zero (n / 10 ^ e) _
    (by intro c hc; cases hc; decide)]
  simp only []
  rw [if_neg (by have := natDigits_length_pos (n / 10 ^ e); omega)]
  rw [parseFrac_body (n / 10 ^ e) neg e (n % 10 ^ e) rest
    (Nat.mod_lt n (by positivity)) he hb]
  have hval : n / 10 ^ e * 10 ^ e + n % 10 ^ e = n := by
    rw [Nat.mul_comm]
    exact Nat.div_add_mod n (10 ^ e)
  rw [hval]

theorem parseNumber_printNum (m : Int) (e : Nat) (rest : List Char)
    (hb : ∀ c, rest.head? = some c → c.isDigit = false ∧ c ≠ '.') :
    parseNumber (printNum m e ++ rest) = some ((m, e), rest) := by
  have habs : m < 0 → -((m.natAbs : Int)) = m := by omega
  have habs2 : ¬ m < 0 → ((m.natAbs : Int)) = m := by omega
  by_cases he : e = 0
  · subst he
    by_cases hm : m < 0
    · have hpr : printNum m 0 ++ rest = '-' :: (natDigits m.natAbs ++ rest) := by
        simp [printNum, hm]
      rw [hpr, parseNumber_cons_dash,
        parseNumber_unsigned_int m.natAbs true rest hb]
      rw [show (if (true : Bool) = true then -((m.natAbs : Int))
        else ((m.natAbs : Int))) = -((m.natAbs : Int)) from rfl, habs hm]
    · obtain ⟨k, ds, hk, hds⟩ := natDigits_head m.natAbs
      have hpr : printNum m 0 ++ rest = digitChar k :: (ds ++ rest) := by
        simp [printNum, hm, hds]
      rw [hpr,
        parseNumber_cons_nodash _ _ (digitChar_class k hk).2.2.2.2.2.2.2.1]
      rw [show digitChar k :: (ds ++ rest) = natDigits m.natAbs ++ rest by
        rw [hds]; rfl]
      rw [parseNumber_unsigned_int m.natAbs false rest hb]
      simp [habs2 hm]
  · by_cases hm : m < 0
    · have hpr : printNum m e ++ rest = '-' ::
          ((natDigits (m.natAbs / 10 ^ e) ++
            '.' :: padDigits e (m.natAbs % 10 ^ e)) ++ rest) := by
        simp [printNum, hm, he, List.append_assoc]
      rw [hpr, parseNumber_cons_dash,
        parseNumber_unsigned_frac m.natAbs e true rest he
          (fun c hc => (hb c hc).1)]
      rw [show (if (true : Bool) = true then -((m.natAbs : Int))
        else ((m.natAbs : Int))) = -((m.natAbs : Int)) from rfl, habs hm]
    · obtain ⟨k, ds, hk, hds⟩ := natDigits_head (m.natAbs / 10 ^ e)
      have hpr : printNum m e ++ rest = digitChar k ::
          ((ds ++ '.' :: padDigits e (m.natAbs % 10 ^ e)) ++ rest) := by
        simp [printNum, hm, he, hds, List.append_assoc]
      rw [hpr,
        parseNumber_cons_nodash _ _ (digitChar_class k hk).2.2.2.2.2.2.2.1]
      rw [show digitChar k :: ((ds ++ '.' :: padDigits e (m.natAbs % 10 ^ e))
          ++ rest) =
        (natDigits (m.natAbs / 10 ^ e) ++
          '.' :: padDigits e (m.natAbs % 10 ^ e)) ++ rest by
        rw [hds]; rfl]
      rw [parseNumber_unsigned_frac m.natAbs e false rest he
        (fun c hc => (hb c hc).1)]
      simp [habs2 hm]

/-! ### String escaping round trip -/

theorem hexVal_hexDigitChar (k : Nat) (h : k < 16) :
    hexVal (hexDigitChar k) = some k := by
  interval_cases k <;> rfl

theorem parseStringBody_escape (l : List Char) :
    ∀ rest : List Char,
      parseStringBody ((l.map escapeChar).flatten ++ '"' :: rest) =
        some (l, rest) := by
  induction l with
  | nil =>
    intro rest
    rw [parseStringBody.eq_def]
    simp
  | cons c cs ih =>
    intro rest
    simp only [List.map_cons, List.flatten_cons, List.append_assoc]
    by_cases h1 : c = '"'
    · subst h1
      simp only [escapeChar, if_pos rfl, List.cons_append, List.nil_append]
      rw [parseStringBody.eq_def]
      simp [escCharOf, ih]
    · by_cases h2 : c = '\\'
      · subst h2
        simp only [escapeChar, if_neg (by decide : ¬('\\' : Char) = '"'),
          if_pos rfl, List.cons_append, List.nil_append]
        rw [parseStringBody.eq_def]
        simp [escCharOf, ih]
      · by_cases h3 : c = '\n'
        · subst h3
          simp only [escapeChar, if_neg (by decide : ¬('\n' : Char) = '"'),
            if_neg (by decide : ¬('\n' : Char) = '\\'), if_pos rfl,
            List.cons_append, List.nil_append]
          rw [parseStringBody.eq_def]
          simp [escCharOf, ih]
        · by_cases h4 : c = '\r'
          · subst h4
            simp only [escapeChar, if_neg (by decide : ¬('\r' : Char) = '"'),
              if_neg (by decide : ¬('\r' : Char) = '\\'),
              if_neg (by decide : ¬('\r' : Char) = '\n'), if_pos rfl,
              List.cons_append, List.nil_append]
            rw [parseStringBody.eq_def]
            simp [escCharOf, ih]
          · by_cases h5 : c = '\t'
            · subst h5
              simp only [escapeChar,
                if_neg (by decide : ¬('\t' : Char) = '"'),
                if_neg (by decide : ¬('\t' : Char) = '\\'),
                if_neg (by decide : ¬('\t' : Char) = '\n'),
                if_neg (by decide : ¬('\t' : Char) = '\r'), if_pos rfl,
                List.cons_append, List.nil_append]
              rw [parseStringBody.eq_def]
              simp [escCharOf, ih]
            · by_cases h6 : c = '\x08'
              · subst h6
                simp only [escapeChar,
                  if_neg (by decide : ¬('\x08' : Char) = '"'),
                  if_neg (by decide : ¬('\x08' : Char) = '\\'),
                  if_neg (by decide : ¬('\x08' : Char) = '\n'),
                  if_neg (by decide : ¬('\x08' : Char) = '\r'),
                  if_neg (by decide : ¬('\x08' : Char) = '\t'), if_pos rfl,
                  List.cons_append, List.nil_append]
                rw [parseStringBody.eq_def]
                simp [escCharOf, ih]
              · by_cases h7 : c = '\x0c'
                · subst h7
                  simp only [escapeChar,
                    if_neg (by decide : ¬('\x0c' : Char) = '"'),
                    if_neg (by decide : ¬('\x0c' : Char) = '\\'),
                    if_neg (by decide : ¬('\x0c' : Char) = '\n'),
                    if_neg (by decide : ¬('\x0c' : Char) = '\r'),
                    if_neg (by decide : ¬('\x0c' : Char) = '\t'),
                    if_neg (by decide : ¬('\x0c' : Char) = '\x08'),
                    if_pos rfl, List.cons_append, List.nil_append]
                  rw [parseStringBody.eq_def]
                  simp [escCharOf, ih]
                · by_cases h8 : c.toNat < 32
                  · have hd1 := hexVal_hexDigitChar (c.toNat / 16) (by omega)
                    have hd2 := hexVal_hexDigitChar (c.toNat % 16) (by omega)
                    simp only [escapeChar, if_neg h1, if_neg h2, if_neg h3,
                      if_neg h4, if_neg h5, if_neg h6, if_neg h7, if_pos h8,
                      List.cons_append, List.nil_append]
                    rw [parseStringBody.eq_def]
                    simp only [List.cons_append]
                    simp [hd1, hd2, ih]
                    simp only [(show hexVal '0' = some 0 from rfl)]
                    have hc : ((0 * 16 + 0) * 16 + c.toNat / 16) * 16 +
                        c.toNat % 16 = c.toNat := by omega
                    rw [hc, Char.ofNat_toNat]
                  · simp only [escapeChar, if_neg h1, if_neg h2, if_neg h3,
                      if_neg h4, if_neg h5, if_neg h6, if_neg h7, if_neg h8,
                      List.cons_append, List.nil_append]
                    rw [parseStringBody.eq_def]
                    simp only [if_neg h1, if_neg h2, if_neg h8, ih]

/-! ### Parser unfolding helpers -/

theorem skipWs_cons (c : Char) (l : List Char) (h : isWsCh c = false) :
    skipWs (c :: l) = c :: l := by
  simp [skipWs, List.dropWhile_cons, h]

theorem string_mk_data (s : String) : String.mk s.data = s := rfl

theorem parseValue_obj (fuel : Nat) (l : List Char) :
    parseValue (fuel + 1) ('{' :: l) = parseMembers fuel (skipWs l) := by
  rw [parseValue.eq_def]
  simp [skipWs_cons _ _ (by decide : isWsCh '{' = false)]

theorem parseValue_str (fuel : Nat) (l cs r : List Char)
    (h : parseStringBody l = some (cs, r)) :
    parseValue (fuel + 1) ('"' :: l) = some (Json.str (String.mk cs), r) := by
  rw [parseValue.eq_def]
  simp [skipWs_cons _ _ (by decide : isWsCh '"' = false), h]

theorem parseValue_null (fuel : Nat) (l : List Char) :
    parseValue (fuel + 1) ('n' :: 'u' :: 'l' :: 'l' :: l) =
      some (Json.null, l) := by
  rw [parseValue.eq_def]
  simp [skipWs_cons _ _ (by decide : isWsCh 'n' = false)]

theorem printNum_head (m : Int) (e : Nat) :
    ∃ c t, printNum m e = c :: t ∧
      (isWsCh c = false ∧ c ≠ '"' ∧ c ≠ '{' ∧ c ≠ '[' ∧ c ≠ 't' ∧
        c ≠ 'f' ∧ c ≠ 'n') := by
  by_cases hm : m < 0
  · by_cases he : e = 0
    · exact ⟨'-', natDigits m.natAbs, by simp [printNum, hm, he], by decide⟩
    · exact ⟨'-', natDigits (m.natAbs / 10 ^ e) ++
        '.' :: padDigits e (m.natAbs % 10 ^ e),
        by simp [printNum, hm, he], by decide⟩
  · by_cases he : e = 0
    · obtain ⟨k, ds, hk, hds⟩ := natDigits_head m.natAbs
      refine ⟨digitChar k, ds, by simp [printNum, hm, he, hds], ?_⟩
      have hc := digitChar_class k hk
      exact ⟨hc.1, hc.2.1, hc.2.2.1, hc.2.2.2.1, hc.2.2.2.2.1,
        hc.2.2.2.2.2.1, hc.2.2.2.2.2.2.1⟩
    · obtain ⟨k, ds, hk, hds⟩ := natDigits_head (m.natAbs / 10 ^ e)
      refine ⟨digitChar k, ds ++ '.' :: padDigits e (m.natAbs % 10 ^ e),
        by simp [printNum, hm, he, hds], ?_⟩
      have hc := digitChar_class k hk
      exact ⟨hc.1, hc.2.1, hc.2.2.1, hc.2.2.2.1, hc.2.2.2.2.1,
        hc.2.2.2.2.2.1, hc.2.2.2.2.2.2.1⟩

theorem parseValue_num (fuel : Nat) (m : Int) (e : Nat) (rest : List Char)
    (hb : ∀ c, rest.head? = some c → c.isDigit = false ∧ c ≠ '.') :
    parseValue (fuel + 1) (printNum m e ++ rest) =
      some (Json.num m e, rest) := by
  have hpn := parseNumber_printNum m e rest hb
  obtain ⟨c, t, hct, hcl⟩ := printNum_head m e
  rw [hct, List.cons_append] at hpn ⊢
  rw [parseValue.eq_def]
  simp [skipWs_cons _ _ hcl.1, hcl.2.1, hcl.2.2.1, hcl.2.2.2.1,
    hcl.2.2.2.2.1, hcl.2.2.2.2.2.1, hcl.2.2.2.2.2.2, hpn]

theorem parseMembers_last (fuel : Nat) (key : String) (v : Json)
    (Lv r : List Char)
    (hv : parseValue fuel Lv = some (v, '}' :: r)) :
    parseMembers (fuel + 1)
        ('"' :: ((key.data.map escapeChar).flatten ++ '"' :: ':' :: Lv)) =
      some (Json.obj [(key, v)], r) := by
  rw [parseMembers.eq_def]
  simp [parseStringBody_escape, hv, string_mk_data,
    skipWs_cons _ _ (by decide : isWsCh ':' = false),
    skipWs_cons _ _ (by decide : isWsCh '}' = false)]

theorem parseMembers_cons (fuel : Nat) (key : String) (v : Json)
    (Lv rtail r : List Char) (ms : List (String × Json))
    (hv : parseValue fuel Lv = some (v, ',' :: rtail))
    (hrest : parseMembers fuel (skipWs rtail) = some (Json.obj ms, r)) :
    parseMembers (fuel + 1)
        ('"' :: ((key.data.map escapeChar).flatten ++ '"' :: ':' :: Lv)) =
      some (Json.obj ((key, v) :: ms), r) := by
  rw [parseMembers.eq_def]
  simp [parseStringBody_escape, hv, hrest, string_mk_data,
    skipWs_cons _ _ (by decide : isWsCh ':' = false),
    skipWs_cons _ _ (by decide : isWsCh ',' = false)]

theorem parseValue_cmdObj (k : Nat) (a : String) (v : Json)
    (hv : parseValue (k + 1) (dumpJson v ++ '}' :: '\n' :: []) =
      some (v, '}' :: '\n' :: [])) :
    parseValue (k + 4)
        (dumpJson (Json.obj [("action", Json.str a), ("value", v)]) ++
          ['\n']) =
      some (Json.obj [("action", Json.str a), ("value", v)], ['\n']) := by
  have hL : dumpJson (Json.obj [("action", Json.str a), ("value", v)]) ++
      ['\n'] =
      '{' :: '"' :: ((("action" : String).data.map escapeChar).flatten ++
        '"' :: ':' :: '"' :: ((a.data.map escapeChar).flatten ++
          '"' :: ',' :: '"' ::
            ((("value" : String).data.map escapeChar).flatten ++
              '"' :: ':' :: (dumpJson v ++ '}' :: '\n' :: [])))) := by
    simp [dumpJson, dumpMembers, escapeString, List.append_assoc]
  rw [hL]
  rw [show (k + 4 : Nat) = (k + 3) + 1 from rfl, parseValue_obj]
  rw [skipWs_cons _ _ (by decide : isWsCh '"' = false)]
  have hv1 : parseValue ((k + 1) + 1)
      ('"' :: ((a.data.map escapeChar).flatten ++
        '"' :: ',' :: '"' ::
          ((("value" : String).data.map escapeChar).flatten ++
            '"' :: ':' :: (dumpJson v ++ '}' :: '\n' :: [])))) =
      some (Json.str a, ',' :: '"' ::
        ((("value" : String).data.map escapeChar).flatten ++
          '"' :: ':' :: (dumpJson v ++ '}' :: '\n' :: []))) := by
    have hstr := parseValue_str (k + 1)
      ((a.data.map escapeChar).flatten ++
        '"' :: ',' :: '"' ::
          ((("value" : String).data.map escapeChar).flatten ++
            '"' :: ':' :: (dumpJson v ++ '}' :: '\n' :: [])))
      a.data
      (',' :: '"' :: ((("value" : String).data.map escapeChar).flatten ++
        '"' :: ':' :: (dumpJson v ++ '}' :: '\n' :: [])))
      (parseStringBody_escape a.data _)
    rw [string_mk_data] at hstr
    exact hstr
  have hrest2 : parseMembers (k + 2)
      (skipWs ('"' :: ((("value" : String).data.map escapeChar).flatten ++
        '"' :: ':' :: (dumpJson v ++ '}' :: '\n' :: [])))) =
      some (Json.obj [("value", v)], ['\n']) := by
    rw [skipWs_cons _ _ (by decide : isWsCh '"' = false)]
    rw [show (k + 2 : Nat) = (k + 1) + 1 from rfl]
    exact parseMembers_last (k + 1) "value" v _ _ hv
  rw [show (k + 3 : Nat) = (k + 2) + 1 from rfl]
  exact parseMembers_cons (k + 2) "action" (Json.str a) _ _ _ _ hv1 hrest2

theorem json_loads_encodeLine (a : String) (v : Json)
    (hv : ∀ k, parseValue (k + 1) (dumpJson v ++ '}' :: '\n' :: []) =
      some (v, '}' :: '\n' :: [])) :
    json_loads (encodeLine a v) =
      some (Json.obj [("action", Json.str a), ("value", v)]) := by
  have hdata : (encodeLine a v).data =
      dumpJson (Json.obj [("action", Json.str a), ("value", v)]) ++
        ['\n'] := by
    simp [encodeLine, json_dumps, String.data_append]
  unfold json_loads
  rw [hdata]
  rw [parseValue_cmdObj _ a v (hv _)]
  simp [skipWs]
  decide

theorem dumpJson_num (m : Int) (e : Nat) :
    dumpJson (Json.num m e) = printNum m e := by
  rw [dumpJson.eq_def]

theorem dumpJson_null : dumpJson Json.null = ['n', 'u', 'l', 'l'] := by
  rw [dumpJson.eq_def]

/-- C8: encoding any command (a well-typed action string with a
numeric-or-null value) to its delimiter-terminated JSON wire line and
parsing that line back yields exactly the same action and the same value
(the decimal value round-trips exactly, which is stronger than
floating-point tolerance); in particular for action SIMULINK_ANALOG with
value 2.5. -/
theorem command_encoder_roundtrip :
    (∀ (action : String) (m : Int) (e : Nat),
        json_loads (encodeLine action (Json.num m e)) =
          some (Json.obj [("action", Json.str action),
            ("value", Json.num m e)])) ∧
      (∀ action : String,
        json_loads (encodeLine action Json.null) =
          some (Json.obj [("action", Json.str action),
            ("value", Json.null)])) ∧
      json_loads (encodeLine "SIMULINK_ANALOG" (Json.num 25 1)) =
        some (Json.obj [("action", Json.str "SIMULINK_ANALOG"),
          ("value", Json.num 25 1)]) := by
  have hnum : ∀ (m : Int) (e : Nat) (k : Nat),
      parseValue (k + 1) (dumpJson (Json.num m e) ++ '}' :: '\n' :: []) =
        some (Json.num m e, '}' :: '\n' :: []) := by
    intro m e k
    rw [dumpJson_num]
    exact parseValue_num k m e _
      (by intro c hc; cases hc; exact ⟨by decide, by decide⟩)
  have hnull : ∀ k,
      parseValue (k + 1) (dumpJson Json.null ++ '}' :: '\n' :: []) =
        some (Json.null, '}' :: '\n' :: []) := by
    intro k
    rw [dumpJson_null]
    exact parseValue_null k _
  exact ⟨fun action m e =>
      json_loads_encodeLine action (Json.num m e) (hnum m e),
    fun action => json_loads_encodeLine action Json.null hnull,
    json_loads_encodeLine "SIMULINK_ANALOG" (Json.num 25 1) (hnum 25 1)⟩
